import Mathlib

/-!
Verification of the backroll-rs rollback networking core against its
natural-language specification.  The definitions below are a shallow
embedding of `src/backroll/src/lib.rs`, `src/backroll/src/protocol/input_buffer.rs`
and `src/backroll/src/backend/p2p.rs`.  Machine integers (`Frame = i32`) are
modelled as `Int`; the i32 maximum appears explicitly as `FrameMax` where the
source uses `Frame::MAX`.  Repository modules that are not part of the source
tree (`protocol/compression.rs`, `sync.rs`, `input.rs`, `backend/mod.rs`) are
modelled from the specification; every such definition carries a doc comment
starting with "Modelled from the spec:".
-/

namespace Backroll

/-- `type Frame = i32` (lib.rs:23), modelled as `Int`. -/
abbrev Frame := Int

/-- `const NULL_FRAME: Frame = -1` (lib.rs:24). -/
def NULL_FRAME : Frame := -1

/-- `fn is_null(frame: Frame) -> bool { frame < 0 }` (lib.rs:26-28). -/
def is_null (frame : Frame) : Bool := decide (frame < 0)

/-- `Frame::MAX`, i.e. `i32::MAX`, used as the initial accumulator of the
min-frame computations in p2p.rs. -/
def FrameMax : Frame := 2147483647

/-- `const RECOMMENDATION_INTERVAL: Frame = 240` (p2p.rs:13). -/
def RECOMMENDATION_INTERVAL : Frame := 240

/-- `const MAX_ROLLBACK_FRAMES: usize = 120` (lib.rs:21), as a frame count. -/
def MAX_ROLLBACK_FRAMES : Frame := 120

/-- Modelled from the spec: `src/backroll/src/input.rs` is not in the source
tree.  Per §3, `FrameInput<T>` is the pair `(frame, input)`; the opaque
bit-copyable input `T` is modelled as a machine word (`Nat`).  The decoder doc
in input_buffer.rs:94-96 states that before any input has been decoded the
`last_decoded` frame is `NULL_FRAME`, so the `Default` value has
`frame = NULL_FRAME` and the all-zero input. -/
structure FrameInput where
  frame : Frame
  input : Nat
deriving DecidableEq, Repr

instance : Inhabited FrameInput := ⟨⟨NULL_FRAME, 0⟩⟩

/-- Modelled from the spec: `protocol/compression.rs` error type.  §4.1 and
§7: `DecodeError` signals a truncated or ill-formed packet. -/
inductive DecodeError
  | malformed
deriving DecidableEq, Repr

/-- Modelled from the spec: `compression::encode` (§4.1).  Each input `I_j` of
the run is XORed against the reference `R` (`D_j = I_j XOR R`) and the
differences are emitted in run order.  The bit-packing of the differences is
modelled as one machine word per input; this preserves the §4.1 contract
(purity, length preservation, order preservation, round trip). -/
def compressionEncode (reference : Nat) (seq : List Nat) : List Nat :=
  seq.map (fun i => Nat.xor i reference)

/-- Modelled from the spec: `compression::decode` (§4.1).  Restores
`I_j = R XOR D_j`, returning one input per encoded frame, in order.  The
modelled byte format has no ill-formed instances, so decoding always
succeeds; `DecodeError` remains as the explicit failure channel of the
source signature. -/
def compressionDecode (reference : Nat) (bits : List Nat) :
    Except DecodeError (List Nat) :=
  Except.ok (bits.map (fun d => Nat.xor reference d))

/-- `InputEncoderRef<T>` (input_buffer.rs:8-17): the pending `VecDeque` is
modelled as a list whose head is the deque's front (`push` is `push_front`,
input_buffer.rs:30, so the head holds the most recently pushed input). -/
structure InputEncoder where
  pending : List FrameInput
  last_acked : FrameInput
  last_encoded : FrameInput
deriving DecidableEq, Repr

instance : Inhabited InputEncoder := ⟨⟨[], default, default⟩⟩

/-- `InputEncoder::push` (input_buffer.rs:29-31): `pending.push_front(input)`. -/
def InputEncoder.push (s : InputEncoder) (input : FrameInput) : InputEncoder :=
  { s with pending := input :: s.pending }

/-- `InputEncoder::last_encoded_frame` (input_buffer.rs:34-36). -/
def InputEncoder.last_encoded_frame (s : InputEncoder) : Frame :=
  s.last_encoded.frame

/-- `InputEncoder::acknowledge_frame` (input_buffer.rs:43-51).
`pending.iter()` walks the deque front to back (newest to oldest pushed);
`.filter(|i| i.frame < ack_frame).last()` is the last kept element of that
walk, and `retain(|i| i.frame >= ack_frame)` keeps the order. -/
def InputEncoder.acknowledge_frame (s : InputEncoder) (ack_frame : Frame) :
    InputEncoder :=
  match (s.pending.filter (fun i => decide (i.frame < ack_frame))).getLast? with
  | some last =>
    { s with
      last_acked := last
      pending := s.pending.filter (fun i => decide (ack_frame ≤ i.frame)) }
  | none => s

/-- `InputEncoder::encode` (input_buffer.rs:62-74).  On a non-empty queue the
start frame is `pending.back().frame` (the oldest pushed frame), the bits are
`compression::encode(&last_acked.input, pending.iter().map(|f| &f.input))`
with the iterator again walking front (newest) to back (oldest), and
`last_encoded` becomes `pending.front()`.  On an empty queue the result is
`(0, Vec::new())`. -/
def InputEncoder.encode (s : InputEncoder) :
    (Frame × List Nat) × InputEncoder :=
  match h : s.pending with
  | [] => ((0, []), s)
  | f :: rest =>
    let start_frame := ((f :: rest).getLast (by simp)).frame
    let bits := compressionEncode s.last_acked.input ((f :: rest).map (fun i => i.input))
    ((start_frame, bits), { s with last_encoded := f })

/-- `InputDecoderRef<T>` (input_buffer.rs:77-83). -/
structure InputDecoder where
  last_decoded : FrameInput
deriving DecidableEq, Repr

instance : Inhabited InputDecoder := ⟨⟨default⟩⟩

/-- The frame numbering of `InputDecoder::decode` (input_buffer.rs:120-126):
`decoded.into_iter().enumerate().map(|(i, input)| FrameInput { frame: start_frame + i as i32, input })`,
written as a recursion that advances the start frame. -/
def withFrames (start : Frame) : List Nat → List FrameInput
  | [] => []
  | x :: xs => ⟨start, x⟩ :: withFrames (start + 1) xs

/-- `InputDecoder::last_decoded_frame` (input_buffer.rs:97-99). -/
def InputDecoder.last_decoded_frame (s : InputDecoder) : Frame :=
  s.last_decoded.frame

/-- `InputDecoder::reset` (input_buffer.rs:104-106). -/
def InputDecoder.reset (_s : InputDecoder) : InputDecoder := ⟨default⟩

/-- `InputDecoder::decode` (input_buffer.rs:108-137): computes the current
frame (`start_frame - 1` when nothing was decoded yet, otherwise the last
decoded frame), decodes the bits against `last_decoded.input`, numbers the
results from `start_frame`, keeps only frames strictly greater than the
current frame, and stores the last surviving input as the new `last_decoded`. -/
def InputDecoder.decode (s : InputDecoder) (start_frame : Frame)
    (bits : List Nat) : Except DecodeError (List FrameInput × InputDecoder) :=
  let last_decoded_frame := s.last_decoded.frame
  let current_frame :=
    if is_null s.last_decoded.frame then start_frame - 1 else last_decoded_frame
  match compressionDecode s.last_decoded.input bits with
  | Except.error e => Except.error e
  | Except.ok decoded =>
    let frame_inputs :=
      (withFrames start_frame decoded).filter
        (fun input => decide (current_frame < input.frame))
    match frame_inputs.getLast? with
    | some latest => Except.ok (frame_inputs, ⟨latest⟩)
    | none => Except.ok (frame_inputs, s)

end Backroll

namespace Backroll

/-- Equality of `Except` results is decidable componentwise; used to evaluate
the embedded operations on concrete inputs. -/
instance {ε α : Type} [DecidableEq ε] [DecidableEq α] : DecidableEq (Except ε α) := fun a b =>
  match a, b with
  | Except.ok x, Except.ok y =>
    if h : x = y then isTrue (by rw [h]) else isFalse (by intro hc; cases hc; exact h rfl)
  | Except.error x, Except.error y =>
    if h : x = y then isTrue (by rw [h]) else isFalse (by intro hc; cases hc; exact h rfl)
  | Except.ok _, Except.error _ => isFalse (by intro hc; cases hc)
  | Except.error _, Except.ok _ => isFalse (by intro hc; cases hc)

theorem withFrames_length (start : Frame) (xs : List Nat) :
    (withFrames start xs).length = xs.length := by
  induction xs generalizing start with
  | nil => rfl
  | cons x xs ih => simp [withFrames, ih]

theorem frame_lt_of_mem_withFrames (xs : List Nat) :
    ∀ (start : Frame) (fi : FrameInput), fi ∈ withFrames start xs →
      fi.frame < start + xs.length := by
  induction xs with
  | nil => intro start fi h; simp [withFrames] at h
  | cons x xs ih =>
    intro start fi h
    simp only [withFrames, List.mem_cons] at h
    rcases h with h | h
    · subst h
      simp only [List.length_cons]
      push_cast
      linarith [Int.ofNat_nonneg xs.length]
    · have := ih (start + 1) fi h
      simp only [List.length_cons]
      push_cast at this ⊢
      linarith

theorem filter_withFrames_of_lt (c : Frame) (xs : List Nat) :
    ∀ start : Frame, c < start →
      (withFrames start xs).filter (fun fi => decide (c < fi.frame)) =
        withFrames start xs := by
  induction xs with
  | nil => intro start h; rfl
  | cons x xs ih =>
    intro start h
    have h1 : c < start + 1 := by linarith
    simp [withFrames, List.filter_cons, h, ih (start + 1) h1]

theorem getLast?_filter_withFrames (xs : List Nat) :
    ∀ (start c : Frame) (fi : FrameInput),
      ((withFrames start xs).filter (fun x => decide (c < x.frame))).getLast? =
          some fi →
      fi.frame = start + xs.length - 1 := by
  induction xs with
  | nil => intro start c fi h; simp [withFrames] at h
  | cons x xs ih =>
    intro start c fi h
    simp only [withFrames, List.filter_cons] at h
    by_cases hc : c < start
    · rw [if_pos (by simpa using hc)] at h
      cases hF :
          (withFrames (start + 1) xs).filter (fun x => decide (c < x.frame)) with
      | nil =>
        rw [hF, List.getLast?_singleton] at h
        have hxs : withFrames (start + 1) xs = [] := by
          rw [← filter_withFrames_of_lt c xs (start + 1) (by linarith)]
          exact hF
        have hlen : xs.length = 0 := by
          have := withFrames_length (start + 1) xs
          rw [hxs] at this
          simpa using this.symm
        cases h
        simp [hlen]
      | cons z zs =>
        rw [hF, List.getLast?_cons_cons, ← hF] at h
        have := ih (start + 1) c fi h
        simp only [List.length_cons]
        push_cast at this ⊢
        linarith
    · rw [if_neg (by simpa using hc)] at h
      have := ih (start + 1) c fi h
      simp only [List.length_cons]
      push_cast at this ⊢
      linarith

end Backroll

namespace Backroll

/-- C2: evaluation of the encoder/decoder pipeline at a concrete failing
input.  A fresh encoder (reference `R` is the default input) receives the
inputs `1` at frame `0` and `2` at frame `1`; `encode` starts the packet at
frame `0` but serializes the pending queue front to back, i.e. newest input
first, so a fresh decoder with the same reference delivers input `2` at
frame `0` and input `1` at frame `1` — the inputs are reassigned to the
wrong frames, and the round trip does not reproduce the pushed sequence. -/
theorem encoder_decoder_round_trip_reverses :
    (((default : InputEncoder).push ⟨0, 1⟩ |>.push ⟨1, 2⟩).encode).1 = (0, [2, 1]) ∧
    (default : InputDecoder).decode 0 [2, 1] =
      Except.ok ([⟨0, 2⟩, ⟨1, 1⟩], ⟨⟨1, 1⟩⟩) ∧
    ([⟨0, 2⟩, ⟨1, 1⟩] : List FrameInput) ≠ [⟨0, 1⟩, ⟨1, 2⟩] := by
  refine ⟨rfl, rfl, ?_⟩
  decide

/-- C3: evaluation of `acknowledge_frame` at a concrete failing input.  With
pending inputs at frames `0` (input `10`) and `1` (input `20`) — pushed in
that order, so the deque holds frame `1` at the front — acknowledging frame
`2` drops both, but `last_acked` becomes the entry of frame `0` (the earliest
dropped input), not the frame-`1` entry the claim requires:
`pending.iter()` yields newest first, so `.filter(frame < 2).last()` is the
oldest matching element. -/
theorem acknowledge_frame_sets_earliest_dropped :
    InputEncoder.acknowledge_frame ⟨[⟨1, 20⟩, ⟨0, 10⟩], default, default⟩ 2 =
      ⟨[], ⟨0, 10⟩, default⟩ ∧
    (⟨0, 10⟩ : FrameInput) ≠ ⟨1, 20⟩ := by
  refine ⟨rfl, ?_⟩
  decide

/-- C10: on an empty pending queue, `encode` returns start frame `0` with an
empty byte buffer and leaves the whole encoder — in particular
`last_encoded` — unchanged; the returned start frame `0` is not the
`NULL_FRAME` sentinel (`is_null 0 = false`). -/
theorem encode_empty_pending (s : InputEncoder) (h : s.pending = []) :
    s.encode = ((0, []), s) ∧ is_null (0 : Frame) = false ∧
      (0 : Frame) ≠ NULL_FRAME := by
  obtain ⟨p, la, le⟩ := s
  simp only at h
  subst h
  exact ⟨rfl, rfl, by decide⟩

/-- C10 witness: the fresh encoder has an empty pending queue, and `encode`
on it evaluates as `encode_empty_pending` states. -/
theorem encode_empty_pending_witness :
    (default : InputEncoder).encode = ((0, []), default) ∧
      is_null (0 : Frame) = false ∧ (0 : Frame) ≠ NULL_FRAME :=
  encode_empty_pending default rfl

/-- C9 counterexample: a packet whose run lies entirely on negative frames is
delivered twice.  A fresh decoder (`last_decoded` at `NULL_FRAME`) decodes
the packet `(start_frame = -2, bits = [5])` and delivers input `5` at frame
`-2`; because `-2` is itself a null frame, the replayed identical packet is
decoded again relative to `start_frame - 1` and delivers a (now garbled)
input at frame `-2` a second time instead of the empty vector the claim
requires. -/
theorem decode_replay_negative_start :
    (default : InputDecoder).decode (-2) [5] =
      Except.ok ([⟨-2, 5⟩], ⟨⟨-2, 5⟩⟩) ∧
    InputDecoder.decode ⟨⟨-2, 5⟩⟩ (-2) [5] =
      Except.ok ([⟨-2, 0⟩], ⟨⟨-2, 0⟩⟩) ∧
    ([⟨-2, 0⟩] : List FrameInput) ≠ [] := by
  refine ⟨rfl, rfl, ?_⟩
  decide

/-- C9 (amended): for every decoder and every packet `(start_frame, bits)`
with `0 ≤ start_frame` that decodes successfully, immediately replaying the
same packet returns `Ok` with an empty vector and leaves the decoder
unchanged, so no input is delivered twice. -/
theorem decode_idempotent_nonneg (d : InputDecoder) (start_frame : Frame)
    (bits : List Nat) (delivered : List FrameInput) (d1 : InputDecoder)
    (hstart : 0 ≤ start_frame)
    (h : d.decode start_frame bits = Except.ok (delivered, d1)) :
    d1.decode start_frame bits = Except.ok ([], d1) := by
  simp only [InputDecoder.decode, compressionDecode] at h
  set c := if is_null d.last_decoded.frame then start_frame - 1
    else d.last_decoded.frame with hc
  set F := (withFrames start_frame (bits.map (fun b => Nat.xor d.last_decoded.input b))).filter
    (fun input => decide (c < input.frame)) with hF
  cases hlast : F.getLast? with
  | none =>
    rw [hlast] at h
    have hFnil : F = [] := List.getLast?_eq_none_iff.mp hlast
    simp only [Except.ok.injEq, Prod.mk.injEq] at h
    obtain ⟨hdel, hd1⟩ := h
    subst hd1
    simp only [InputDecoder.decode, compressionDecode, ← hc, ← hF, hlast, hFnil]
    rfl
  | some latest =>
    rw [hlast] at h
    simp only [Except.ok.injEq, Prod.mk.injEq] at h
    obtain ⟨hdel, hd1⟩ := h
    have hframe : latest.frame = start_frame + (bits.map (fun b => Nat.xor d.last_decoded.input b)).length - 1 :=
      getLast?_filter_withFrames _ _ _ _ (hF ▸ hlast)
    rw [List.length_map] at hframe
    have hbits : bits ≠ [] := by
      intro hb
      subst hb
      simp [hF, withFrames] at hlast
    have hlen : 1 ≤ bits.length := by
      cases hb : bits with
      | nil => exact absurd hb hbits
      | cons y ys => simp
    have hnonneg : 0 ≤ latest.frame := by
      rw [hframe]
      have : (1 : Int) ≤ (bits.length : Int) := by exact_mod_cast hlen
      linarith
    subst hd1
    simp only [InputDecoder.decode, compressionDecode]
    have hnull : is_null latest.frame = false := by
      simp only [is_null, decide_eq_false_iff_not]
      linarith
    simp only [InputDecoder.last_decoded, hnull, Bool.false_eq_true, if_false]
    have hempty :
        (withFrames start_frame (bits.map (fun b => Nat.xor latest.input b))).filter
          (fun input => decide (latest.frame < input.frame)) = [] := by
      rw [List.filter_eq_nil_iff]
      intro a ha
      have hlt := frame_lt_of_mem_withFrames _ start_frame a ha
      rw [List.length_map] at hlt
      simp only [decide_eq_true_eq]
      intro hcon
      rw [hframe] at hcon
      have h1 := Int.add_one_le_iff.mpr hcon
      linarith
    rw [hempty]
    rfl

end Backroll

namespace Backroll

/-- C9 witness: replaying the packet `(start_frame = 3, bits = [7, 9])`
against a fresh decoder delivers two inputs the first time and the empty
vector the second time. -/
theorem decode_idempotent_nonneg_witness :
    InputDecoder.decode ⟨⟨4, 9⟩⟩ 3 [7, 9] = Except.ok ([], ⟨⟨4, 9⟩⟩) :=
  decode_idempotent_nonneg (default : InputDecoder) 3 [7, 9] [⟨3, 7⟩, ⟨4, 9⟩]
    ⟨⟨4, 9⟩⟩ (by decide) (by decide)

end Backroll

namespace Backroll

/-- `ConnectionStatus` (§3): `(disconnected, last_frame)`, initialized with
`disconnected = false, last_frame = NULL_FRAME` (the struct lives in
`protocol/mod.rs`, outside the source tree; the shape and the default are
taken from §3 of the spec). -/
structure ConnectionStatus where
  disconnected : Bool
  last_frame : Frame
deriving DecidableEq, Repr

instance : Inhabited ConnectionStatus := ⟨⟨false, NULL_FRAME⟩⟩

/-- Modelled from the spec: the connection state machine of a
`BackrollPeer` (§4.3), whose module is not in the source tree.  Only the
observations p2p.rs makes of it are needed: `is_running`, `is_synchronized`
and the transition to `Disconnected` on an explicit local disconnect. -/
inductive PeerState
  | Initializing
  | Synchronizing
  | Running
  | Disconnected
deriving DecidableEq, Repr

/-- `peer.state().is_running()` as used in p2p.rs:145 and p2p.rs:177-180. -/
def PeerState.is_running (s : PeerState) : Bool := s == PeerState.Running

/-- Modelled from the spec: the per-remote-peer protocol endpoint (§4.3) as
observed by p2p.rs — its connection state, its view of every queue's
`ConnectionStatus` (indexed by queue), its current timesync recommendation
(`recommend_frame_delay`, §4.3, kept abstract as a stored value), and the
disconnect thresholds pushed into it by the session backend. -/
structure BackrollPeer where
  state : PeerState
  peer_connect_status : List ConnectionStatus
  recommend_frame_delay : Frame
  disconnect_timeout : Option Nat
  disconnect_notify_start : Option Nat
deriving DecidableEq, Repr

/-- `peer.get_peer_connect_status(i)` (p2p.rs:146, p2p.rs:183). -/
def BackrollPeer.get_peer_connect_status (p : BackrollPeer) (i : Nat) :
    ConnectionStatus :=
  p.peer_connect_status.getD i default

/-- Modelled from the spec: `BackrollPlayer` (`backend/mod.rs`, not in the
source tree).  §3: player kind is one of `Local`, `Remote(peer)`,
`Spectator(peer)`. -/
inductive BackrollPlayer
  | Local
  | Remote (peer : BackrollPeer)
  | Spectator (peer : BackrollPeer)
deriving DecidableEq, Repr

instance : Inhabited BackrollPlayer := ⟨BackrollPlayer.Local⟩

/-- `player.peer()`: the endpoint of a remote or spectator slot. -/
def BackrollPlayer.peer : BackrollPlayer → Option BackrollPeer
  | BackrollPlayer.Local => none
  | BackrollPlayer.Remote p => some p
  | BackrollPlayer.Spectator p => some p

/-- `player.is_local()`. -/
def BackrollPlayer.is_local : BackrollPlayer → Bool
  | BackrollPlayer.Local => true
  | _ => false

/-- `player.is_remote_player()`. -/
def BackrollPlayer.is_remote_player : BackrollPlayer → Bool
  | BackrollPlayer.Remote _ => true
  | _ => false

/-- `player.is_spectator()`. -/
def BackrollPlayer.is_spectator : BackrollPlayer → Bool
  | BackrollPlayer.Spectator _ => true
  | _ => false

/-- Modelled from the spec: `player.is_synchronized()` — the endpoint has
completed the sync handshake and reached `Running` (§4.3); trivially true
for the local slot, which p2p.rs only queries behind `!player.is_local()`. -/
def BackrollPlayer.is_synchronized : BackrollPlayer → Bool
  | BackrollPlayer.Local => true
  | BackrollPlayer.Remote p => p.state == PeerState.Running
  | BackrollPlayer.Spectator p => p.state == PeerState.Running

/-- Modelled from the spec: `player.disconnect()` moves the endpoint's state
machine to the terminal `Disconnected` state (§4.3: explicit local
disconnect). -/
def BackrollPlayer.disconnect : BackrollPlayer → BackrollPlayer
  | BackrollPlayer.Local => BackrollPlayer.Local
  | BackrollPlayer.Remote p =>
    BackrollPlayer.Remote { p with state := PeerState.Disconnected }
  | BackrollPlayer.Spectator p =>
    BackrollPlayer.Spectator { p with state := PeerState.Disconnected }

/-- `player.set_disconnect_timeout(timeout)` (backend/mod.rs, modelled from
the spec: stores the threshold on the endpoint; no effect on a local slot). -/
def BackrollPlayer.set_disconnect_timeout (p : BackrollPlayer)
    (timeout : Option Nat) : BackrollPlayer :=
  match p with
  | BackrollPlayer.Local => BackrollPlayer.Local
  | BackrollPlayer.Remote q =>
    BackrollPlayer.Remote { q with disconnect_timeout := timeout }
  | BackrollPlayer.Spectator q =>
    BackrollPlayer.Spectator { q with disconnect_timeout := timeout }

/-- `player.set_disconnect_notify_start(timeout)` (modelled from the spec, as
above). -/
def BackrollPlayer.set_disconnect_notify_start (p : BackrollPlayer)
    (timeout : Option Nat) : BackrollPlayer :=
  match p with
  | BackrollPlayer.Local => BackrollPlayer.Local
  | BackrollPlayer.Remote q =>
    BackrollPlayer.Remote { q with disconnect_notify_start := timeout }
  | BackrollPlayer.Spectator q =>
    BackrollPlayer.Spectator { q with disconnect_notify_start := timeout }

/-- `BackrollError` (lib.rs:61-75).  Player handles are bare queue indices
(`PlayerHandle(pub usize)`, lib.rs:32). -/
inductive BackrollError
  | MultipleLocalPlayers
  | InRollback
  | NotSynchronized
  | ReachedPredictionBarrier
  | InvalidPlayer (handle : Nat)
  | PlayerDisconnected (handle : Nat)
deriving DecidableEq, Repr

/-- `P2PBackend<T>` (p2p.rs:15-30).  The `BackrollSync` buffer (sync.rs, not
in the source tree) is modelled from the spec by the observations p2p.rs
makes of it: `in_rollback`, `frame_count`, `last_confirmed_frame`, the
per-queue `frame_delay` (§4.2) and the opaque value `synchronize_inputs`
would currently return; its remaining internals are recorded as trace
events.  The pending `VecDeque`-free fields map one to one onto the Rust
struct. -/
structure P2PState where
  players : List BackrollPlayer
  local_connect_status : List ConnectionStatus
  synchronizing : Bool
  next_recommended_sleep : Frame
  next_spectator_frame : Frame
  disconnect_timeout : Option Nat
  disconnect_notify_start : Option Nat
  sync_in_rollback : Bool
  sync_frame_count : Frame
  sync_last_confirmed_frame : Frame
  sync_frame_delay : List Frame
  sync_game_input : List Nat × Nat
deriving DecidableEq, Repr

/-- Calls the session backend makes into subsystems whose state is not
itself part of `P2PState`: the sync buffer, the endpoints and the host
callbacks.  `forwardSpectatorInput` corresponds to the spectator input send
that p2p.rs:110-114 leaves commented out, `timeSync` to the `TimeSync`
event emission left commented out at p2p.rs:129-132, and `runningEvent`
to the `Running` event emission left commented out at p2p.rs:386-389;
the embedded code can emit them only where the source actually does. -/
inductive TraceEvent
  | checkSimulation
  | setLocalFrameNumber (frame : Frame)
  | forwardSpectatorInput (frame : Frame)
  | setLastConfirmedFrame (frame : Frame)
  | timeSync (frames_ahead : Frame)
  | runningEvent
  | disconnectQueue (queue : Nat) (syncto : Frame)
  | adjustSimulation (frame : Frame)
deriving DecidableEq, Repr

/-- The loop condition scanned by `check_initial_sync` (p2p.rs:377-384):
every slot is local, synchronized, or locally marked disconnected. -/
def allNonLocalSynchronizedOrDisconnected (s : P2PState) : Bool :=
  (List.range s.players.length).all (fun i =>
    let player := s.players.getD i default
    player.is_local || player.is_synchronized ||
      (s.local_connect_status.getD i default).disconnected)

/-- `check_initial_sync` (p2p.rs:373-391).  The body only scans: the
statements that would emit `Running` and clear `synchronizing`
(p2p.rs:386-389) are commented out in the source, so both branches leave
the state unchanged and emit nothing. -/
def check_initial_sync (s : P2PState) : P2PState × List TraceEvent :=
  if s.synchronizing then
    if allNonLocalSynchronizedOrDisconnected s then (s, []) else (s, [])
  else (s, [])

/-- `disconnect_player_queue` (p2p.rs:305-334): disconnects the endpoint,
latches the local connect status to `(true, syncto)`, adjusts the
simulation when `syncto < frame_count`, and runs `check_initial_sync`. -/
def disconnect_player_queue (s : P2PState) (queue : Nat) (syncto : Frame) :
    P2PState × List TraceEvent :=
  let frame_count := s.sync_frame_count
  let s1 := { s with players := s.players.set queue ((s.players.getD queue default).disconnect) }
  let s2 := { s1 with
    local_connect_status :=
      s1.local_connect_status.set queue ⟨true, syncto⟩ }
  let adjust : List TraceEvent :=
    if syncto < frame_count then [TraceEvent.adjustSimulation syncto] else []
  let (s3, tr) := check_initial_sync s2
  (s3, TraceEvent.disconnectQueue queue syncto :: adjust ++ tr)

end Backroll

namespace Backroll

/-- Body of the loop of `poll_2_players` (p2p.rs:138-164), one iteration per
queue index `i`, threading the state, the running minimum and the emitted
trace.  Per iteration: `queue_connected` is read from the slot's own
endpoint when it is running, the local status is merged into `min_frame`
when not disconnected, and a remote-requested disconnect is reconciled at
the *accumulated* `min_frame`. -/
def poll2_loop (s : P2PState) (i : Nat) (fuel : Nat) (min_frame : Frame)
    (acc : List TraceEvent) : Frame × P2PState × List TraceEvent :=
  match fuel with
  | 0 => (min_frame, s, acc)
  | fuel + 1 =>
    let player := s.players.getD i default
    let queue_connected :=
      match player.peer with
      | some peer =>
        if peer.state.is_running then
          !(peer.get_peer_connect_status i).disconnected
        else true
      | none => true
    let local_status := s.local_connect_status.getD i default
    let min_frame :=
      if !local_status.disconnected then min local_status.last_frame min_frame
      else min_frame
    let (s, tr) :=
      if !queue_connected && !local_status.disconnected then
        disconnect_player_queue s i min_frame
      else (s, [])
    poll2_loop s (i + 1) fuel min_frame (acc ++ tr)

/-- `poll_2_players` (p2p.rs:138-164): returns the computed `min_frame`
together with the updated session state and the reconciliation calls. -/
def poll_2_players (s : P2PState) : Frame × P2PState × List TraceEvent :=
  poll2_loop s 0 s.players.length FrameMax []

/-- One step of the inner endpoint scan of `poll_n_players`
(p2p.rs:173-191): running endpoints contribute their view of `queue` to
`(queue_connected, queue_min_confirmed)`; everything else is skipped. -/
def polln_step (queue : Nat) (acc : Bool × Frame) (player : BackrollPlayer) :
    Bool × Frame :=
  match player.peer with
  | some peer =>
    if peer.state.is_running then
      let status := peer.get_peer_connect_status queue
      (acc.1 && !status.disconnected, min status.last_frame acc.2)
    else acc
  | none => acc

/-- The inner endpoint scan of `poll_n_players` over all players
(p2p.rs:173-191). -/
def polln_inner (players : List BackrollPlayer) (queue : Nat) : Bool × Frame :=
  players.foldl (polln_step queue) (true, FrameMax)

/-- Body of the outer loop of `poll_n_players` (p2p.rs:166-217), one
iteration per queue.  After the endpoint scan the local status is merged in
when still connected; a connected queue lowers `min_frame`, a disconnected
one is reconciled at `queue_min_confirmed` when the local view still claims
connected or lies ahead of it. -/
def polln_loop (s : P2PState) (queue : Nat) (fuel : Nat) (min_frame : Frame)
    (acc : List TraceEvent) : Frame × P2PState × List TraceEvent :=
  match fuel with
  | 0 => (min_frame, s, acc)
  | fuel + 1 =>
    let scan := polln_inner s.players queue
    let queue_connected := scan.1
    let local_status := s.local_connect_status.getD queue default
    let queue_min_confirmed :=
      if !local_status.disconnected then min local_status.last_frame scan.2
      else scan.2
    if queue_connected then
      polln_loop s (queue + 1) fuel (min queue_min_confirmed min_frame) acc
    else
      let (s, tr) :=
        if !local_status.disconnected ||
            decide (queue_min_confirmed < local_status.last_frame) then
          disconnect_player_queue s queue queue_min_confirmed
        else (s, [])
      polln_loop s (queue + 1) fuel min_frame (acc ++ tr)

/-- `poll_n_players` (p2p.rs:166-217). -/
def poll_n_players (s : P2PState) : Frame × P2PState × List TraceEvent :=
  polln_loop s 0 s.players.length FrameMax []

end Backroll

namespace Backroll

/-- `self.players()` (p2p.rs:55-61): the endpoints of remote players
(filter `is_remote_player`, then `peer()`, flattened). -/
def remotePeers (s : P2PState) : List BackrollPeer :=
  s.players.filterMap (fun p => if p.is_remote_player then p.peer else none)

/-- `self.spectators()` (p2p.rs:71-77): the endpoints of spectators. -/
def spectatorPeers (s : P2PState) : List BackrollPeer :=
  s.players.filterMap (fun p => if p.is_spectator then p.peer else none)

/-- `do_poll` (p2p.rs:83-136): early return while in rollback or
synchronizing; `check_simulation`; frame-number broadcast to every remote
endpoint; `min_frame` through the two-player or the general path; the
confirmed-frame block (the spectator forwarding inside the `while` loop is
commented out in the source, p2p.rs:110-114, so only `next_spectator_frame`
advances past `min_frame`); finally the timesync block, whose `TimeSync`
event emission is commented out in the source (p2p.rs:129-132) — it updates
`next_recommended_sleep` whenever the session has any remote endpoint at
all (`Iterator::max` returns `Some` for any non-empty iterator). -/
def do_poll (s : P2PState) : P2PState × List TraceEvent :=
  if s.sync_in_rollback || s.synchronizing then (s, [])
  else
    let current_frame := s.sync_frame_count
    let tr0 := TraceEvent.checkSimulation ::
      (remotePeers s).map (fun _ => TraceEvent.setLocalFrameNumber current_frame)
    let polled :=
      if (remotePeers s).length ≤ 2 then poll_2_players s else poll_n_players s
    let min_frame := polled.1
    let s1 := polled.2.1
    let trP := polled.2.2
    let confirmed :=
      if 0 ≤ min_frame then
        let s2 :=
          if !(spectatorPeers s1).isEmpty then
            if s1.next_spectator_frame ≤ min_frame then
              { s1 with next_spectator_frame := min_frame + 1 }
            else s1
          else s1
        (s2, [TraceEvent.setLastConfirmedFrame min_frame])
      else (s1, ([] : List TraceEvent))
    let s2 := confirmed.1
    let tr2 := confirmed.2
    let stepped :=
      if s2.next_recommended_sleep < current_frame then
        match ((remotePeers s2).map (fun p => p.recommend_frame_delay)).max? with
        | some _ =>
          ({ s2 with next_recommended_sleep :=
              current_frame + RECOMMENDATION_INTERVAL }, ([] : List TraceEvent))
        | none => (s2, ([] : List TraceEvent))
      else (s2, ([] : List TraceEvent))
    (stepped.1, tr0 ++ trP ++ tr2 ++ stepped.2)

/-- `add_player` (p2p.rs:219-229): hands out the next queue index as the
handle, pushes the disconnect thresholds into the new slot and appends it.
No player-kind check of any sort is performed. -/
def add_player (s : P2PState) (player : BackrollPlayer) :
    Except BackrollError Nat × P2PState :=
  let handle := s.players.length
  let player := (player.set_disconnect_timeout s.disconnect_timeout).set_disconnect_notify_start
    s.disconnect_notify_start
  (Except.ok handle, { s with players := s.players ++ [player] })

/-- `player_handle_to_queue` (p2p.rs:393-399); `player_count()` is the
queue count fixed at construction (p2p.rs:33-42), the length of the shared
connect-status vector. -/
def player_handle_to_queue (s : P2PState) (player : Nat) :
    Except BackrollError Nat :=
  if s.local_connect_status.length ≤ player then
    Except.error (BackrollError.InvalidPlayer player)
  else Except.ok player

/-- Modelled from the spec: `BackrollSync::add_local_input` (sync.rs, not in
the source tree).  §4.2: assigns the frame `frame_count + frame_delay[queue]`
and stores the input; §7: fails with `ReachedPredictionBarrier` when the
input would exceed `MAX_ROLLBACK_FRAMES` ahead of `last_confirmed_frame`.
The queue storage itself is not observed by any session-level claim. -/
def sync_add_local_input (s : P2PState) (queue : Nat) :
    Except BackrollError Frame :=
  let frame := s.sync_frame_count + s.sync_frame_delay.getD queue 0
  if s.sync_last_confirmed_frame + MAX_ROLLBACK_FRAMES < frame then
    Except.error BackrollError.ReachedPredictionBarrier
  else Except.ok frame

/-- `add_local_input` (p2p.rs:231-252): rejected with `InRollback` during a
rollback, then with `NotSynchronized` while synchronizing; otherwise the
input goes to the sync buffer and, when a non-null frame was assigned, is
sent to every player slot (the broadcast is returned as the list of
`send_input` calls, one per slot).  An error leaves the session untouched:
the state is returned only on success. -/
def add_local_input (s : P2PState) (player : Nat) (input : Nat) :
    Except BackrollError (P2PState × List Nat) :=
  if s.sync_in_rollback then Except.error BackrollError.InRollback
  else if s.synchronizing then Except.error BackrollError.NotSynchronized
  else
    match player_handle_to_queue s player with
    | Except.error e => Except.error e
    | Except.ok queue =>
      match sync_add_local_input s queue with
      | Except.error e => Except.error e
      | Except.ok frame =>
        if !is_null frame then
          Except.ok (s, s.players.map (fun _ => input))
        else Except.ok (s, [])

/-- Modelled from the spec: `BackrollSync::synchronize_inputs` (§4.2)
returns the current `GameInput` with its predicted mask; kept abstract as a
value carried in the state. -/
def synchronize_inputs (s : P2PState) : List Nat × Nat := s.sync_game_input

/-- `sync_input` (p2p.rs:254-261): refuses with `NotSynchronized` while the
session is synchronizing, otherwise delegates to the sync buffer. -/
def sync_input (s : P2PState) : Except BackrollError (List Nat × Nat) :=
  if s.synchronizing then Except.error BackrollError.NotSynchronized
  else Except.ok (synchronize_inputs s)

end Backroll

namespace Backroll

/-- A baseline running session: two queues, no spectators, nothing
disconnected, used as the template for the concrete poll states below. -/
def baseState : P2PState := {
  players := [BackrollPlayer.Local,
    BackrollPlayer.Remote ⟨PeerState.Running, [⟨false, 5⟩, ⟨false, 7⟩], 0, none, none⟩]
  local_connect_status := [⟨false, 10⟩, ⟨false, 20⟩]
  synchronizing := false
  next_recommended_sleep := 0
  next_spectator_frame := 0
  disconnect_timeout := none
  disconnect_notify_start := none
  sync_in_rollback := false
  sync_frame_count := 0
  sync_last_confirmed_frame := 0
  sync_frame_delay := []
  sync_game_input := ([], 0) }

/-- C1 counterexample: a two-player session (local player plus one running
remote endpoint) where the remote endpoint reports last frames `5` and `7`
for the two queues while the local statuses carry last frames `10` and `20`.
The two-player fast path ignores the peer-reported frames and returns
`min_frame = 10`; the general path folds them in and returns `min_frame = 5`
(neither path reconciles a disconnect here), so the two paths are not
behaviorally identical. -/
theorem poll_paths_differ :
    (poll_2_players baseState).1 = 10 ∧
    (poll_n_players baseState).1 = 5 ∧
    poll_2_players baseState ≠ poll_n_players baseState := by
  refine ⟨rfl, rfl, ?_⟩
  decide

/-- C4: `check_initial_sync` changes nothing and emits nothing on any state
whatsoever — the statements that would clear `synchronizing` and emit the
`Running` event are commented out in the source (p2p.rs:386-389) — even when
every non-local queue is synchronized or locally disconnected. -/
theorem check_initial_sync_is_inert (s : P2PState) :
    check_initial_sync s = (s, []) := by
  unfold check_initial_sync
  split
  · split <;> rfl
  · rfl

/-- The concrete failing input for C4: a synchronizing session whose single
remote endpoint has reached `Running`, so the scanned condition holds, yet
`check_initial_sync` leaves `synchronizing` set and emits no event. -/
def initialSyncState : P2PState := { baseState with
  synchronizing := true
  local_connect_status := [⟨false, -1⟩, ⟨false, -1⟩] }

/-- C4 evaluation at the failing input: the scan condition is satisfied and
the state still comes back unchanged with `synchronizing = true`. -/
theorem check_initial_sync_inert_at_ready_state :
    allNonLocalSynchronizedOrDisconnected initialSyncState = true ∧
    initialSyncState.synchronizing = true ∧
    check_initial_sync initialSyncState = (initialSyncState, []) ∧
    (check_initial_sync initialSyncState).1.synchronizing = true := by
  refine ⟨by decide, rfl, by decide, rfl⟩

/-- The concrete failing input for C5: a running session with one local
player and one running spectator endpoint; the local statuses confirm
frames `3` and `5`, so `do_poll` computes `min_frame = 3` with
`next_spectator_frame = 0`. -/
def spectatorPollState : P2PState := { baseState with
  players := [BackrollPlayer.Local,
    BackrollPlayer.Spectator ⟨PeerState.Running, [⟨false, 9⟩, ⟨false, 9⟩], 0, none, none⟩]
  local_connect_status := [⟨false, 3⟩, ⟨false, 5⟩] }

/-- C5: at the failing input, `do_poll` advances `next_spectator_frame` to
`min_frame + 1 = 4` and calls `set_last_confirmed_frame(3)`, but forwards
no confirmed input to the registered spectator for any of the frames
`0..3` — the forwarding body of the `while` loop is commented out in the
source (p2p.rs:110-114). -/
theorem do_poll_forwards_nothing_to_spectators :
    do_poll spectatorPollState =
      ({ spectatorPollState with next_spectator_frame := 4 },
        [TraceEvent.checkSimulation, TraceEvent.setLastConfirmedFrame 3]) ∧
    ∀ f : Frame,
      TraceEvent.forwardSpectatorInput f ∉ (do_poll spectatorPollState).2 := by
  refine ⟨by decide, ?_⟩
  intro f
  have h : (do_poll spectatorPollState).2 =
      [TraceEvent.checkSimulation, TraceEvent.setLastConfirmedFrame 3] := by decide
  rw [h]
  simp

/-- The concrete failing input for C6: a running session at frame `1` with
`next_recommended_sleep = 0` and one running remote endpoint whose
`recommend_frame_delay` is the positive value `3`. -/
def timesyncPollState : P2PState := { baseState with
  players := [BackrollPlayer.Local,
    BackrollPlayer.Remote ⟨PeerState.Running, [⟨false, 9⟩, ⟨false, 9⟩], 3, none, none⟩]
  local_connect_status := [⟨false, 7⟩, ⟨false, 9⟩]
  sync_frame_count := 1 }

/-- C6: at the failing input the timesync branch runs (`1 > 0`), the maximum
recommendation over the remote endpoints is the positive `3`, and `do_poll`
does set `next_recommended_sleep = 1 + 240 = 241` — but no `TimeSync` event
is emitted: the emission is commented out in the source (p2p.rs:129-132),
and the branch keys on `Iterator::max` returning `Some` rather than on the
maximum being positive. -/
theorem do_poll_emits_no_timesync :
    do_poll timesyncPollState =
      ({ timesyncPollState with next_recommended_sleep := 241 },
        [TraceEvent.checkSimulation, TraceEvent.setLocalFrameNumber 1,
          TraceEvent.setLastConfirmedFrame 7]) ∧
    ∀ v : Frame, TraceEvent.timeSync v ∉ (do_poll timesyncPollState).2 := by
  refine ⟨by decide, ?_⟩
  intro v
  have h : (do_poll timesyncPollState).2 =
      [TraceEvent.checkSimulation, TraceEvent.setLocalFrameNumber 1,
        TraceEvent.setLastConfirmedFrame 7] := by decide
  rw [h]
  simp

end Backroll

namespace Backroll

/-- A session that is mid-rollback (and not synchronizing). -/
def rollbackState : P2PState := { baseState with sync_in_rollback := true }

/-- A session that is still synchronizing (and not mid-rollback). -/
def synchronizingState : P2PState := { baseState with synchronizing := true }

/-- A session that is both mid-rollback and still synchronizing. -/
def bothFlagsState : P2PState :=
  { baseState with sync_in_rollback := true, synchronizing := true }

/-- C7 counterexample: when the session is simultaneously mid-rollback and
synchronizing, `add_local_input` returns `InRollback` — the rollback check
comes first (p2p.rs:236-241) — and not the `NotSynchronized` the claim
demands for every synchronizing session. -/
theorem rollback_takes_precedence :
    bothFlagsState.synchronizing = true ∧
    add_local_input bothFlagsState 0 0 = Except.error BackrollError.InRollback ∧
    add_local_input bothFlagsState 0 0 ≠
      Except.error BackrollError.NotSynchronized := by
  refine ⟨rfl, rfl, ?_⟩
  decide

/-- C7 (amended): `add_local_input` fails with `InRollback` whenever the
sync buffer reports a rollback, with `NotSynchronized` whenever the session
is synchronizing but not mid-rollback (the rollback check takes precedence),
and `sync_input` fails with `NotSynchronized` whenever the session is
synchronizing; in each case the call returns a bare error, so no session
state is modified and no input is broadcast. -/
theorem session_error_guards (s : P2PState) (player : Nat) (input : Nat) :
    (s.sync_in_rollback = true →
      add_local_input s player input = Except.error BackrollError.InRollback) ∧
    (s.sync_in_rollback = false → s.synchronizing = true →
      add_local_input s player input =
        Except.error BackrollError.NotSynchronized) ∧
    (s.synchronizing = true →
      sync_input s = Except.error BackrollError.NotSynchronized) := by
  refine ⟨?_, ?_, ?_⟩
  · intro h
    simp [add_local_input, h]
  · intro h1 h2
    simp [add_local_input, h1, h2]
  · intro h
    simp [sync_input, h]

/-- C7 witness: the three guards evaluated at concrete sessions. -/
theorem session_error_guards_witness :
    add_local_input rollbackState 0 0 = Except.error BackrollError.InRollback ∧
    add_local_input synchronizingState 0 0 =
      Except.error BackrollError.NotSynchronized ∧
    sync_input synchronizingState = Except.error BackrollError.NotSynchronized :=
  ⟨(session_error_guards rollbackState 0 0).1 rfl,
    (session_error_guards synchronizingState 0 0).2.1 rfl rfl,
    (session_error_guards synchronizingState 0 0).2.2 rfl⟩

/-- A session already holding one local player. -/
def singleLocalState : P2PState := { baseState with
  players := [BackrollPlayer.Local] }

/-- C8: `add_player` performs no player-kind check whatsoever
(p2p.rs:219-229): adding a second `Local` player to a session that already
has one succeeds with the next handle and appends the player, instead of
failing with `MultipleLocalPlayers` as the claim (and the dead
`BackrollError::MultipleLocalPlayers` variant, lib.rs:63-64) demand. -/
theorem add_player_accepts_second_local :
    singleLocalState.players = [BackrollPlayer.Local] ∧
    add_player singleLocalState BackrollPlayer.Local =
      (Except.ok 1,
        { singleLocalState with
          players := [BackrollPlayer.Local, BackrollPlayer.Local] }) := by
  refine ⟨rfl, ?_⟩
  decide

end Backroll

namespace Backroll

/-- The endpoint-is-running test both poll paths apply to a player slot
(`player.peer().map(|peer| peer.state().is_running()).unwrap_or(false)`). -/
def peerRunning (p : BackrollPlayer) : Bool :=
  match p.peer with
  | some peer => peer.state.is_running
  | none => false

/-- The connect status a player slot's endpoint reports for a queue
(`default` for a local slot, which neither poll path ever reads). -/
def playerStatus (p : BackrollPlayer) (q : Nat) : ConnectionStatus :=
  match p.peer with
  | some peer => peer.get_peer_connect_status q
  | none => default

theorem getD_mem {α : Type} [Inhabited α] :
    ∀ (l : List α) (i : Nat), i < l.length → l.getD i default ∈ l := by
  intro l
  induction l with
  | nil => intro i h; simp at h
  | cons a l ih =>
    intro i h
    cases i with
    | zero => simp
    | succ j =>
      have : j < l.length := by simpa using h
      simp only [List.getD_cons_succ]
      exact List.mem_cons_of_mem a (ih j this)

/-- When every running endpoint reports the same status `st` for queue `q`,
the inner scan of `poll_n_players` contributes exactly one copy of `st`
(or nothing, when no endpoint is running). -/
theorem polln_inner_constant (q : Nat) (st : ConnectionStatus) :
    ∀ (ps : List BackrollPlayer) (b : Bool) (m : Frame),
      (∀ p ∈ ps, peerRunning p = true → playerStatus p q = st) →
      ps.foldl (polln_step q) (b, m) =
        (if ps.any peerRunning then (b && !st.disconnected, min st.last_frame m)
        else (b, m)) := by
  intro ps
  induction ps with
  | nil =>
    intro b m h
    simp
  | cons p ps ih =>
    intro b m h
    have hp := h p (List.mem_cons_self p ps)
    have hps : ∀ x ∈ ps, peerRunning x = true → playerStatus x q = st :=
      fun x hx => h x (List.mem_cons_of_mem p hx)
    simp only [List.foldl_cons, List.any_cons]
    by_cases hr : peerRunning p = true
    · have hstat := hp hr
      have hstep : polln_step q (b, m) p =
          (b && !st.disconnected, min st.last_frame m) := by
        unfold polln_step
        unfold peerRunning at hr
        unfold playerStatus at hstat
        cases hpeer : p.peer with
        | none => rw [hpeer] at hr; cases hr
        | some peer =>
          rw [hpeer] at hr hstat
          dsimp only at hr hstat
          simp only [hr, if_true, hstat]
      rw [hstep, ih _ _ hps]
      by_cases ha : ps.any peerRunning = true
      · simp only [hr, ha, Bool.true_or, if_true]
        rw [Bool.and_assoc, Bool.and_self, ← min_assoc, min_self]
      · simp only [Bool.not_eq_true] at ha
        simp [hr, ha]
    · simp only [Bool.not_eq_true] at hr
      have hstep : polln_step q (b, m) p = (b, m) := by
        unfold polln_step
        unfold peerRunning at hr
        cases hpeer : p.peer with
        | none => rfl
        | some peer =>
          rw [hpeer] at hr
          dsimp only at hr
          simp [hr]
      rw [hstep, ih _ _ hps]
      simp [hr]

end Backroll

namespace Backroll

theorem poll_loops_agree_aux (s : P2PState)
    (hlen : s.local_connect_status.length = s.players.length)
    (hbound : ∀ st ∈ s.local_connect_status, st.last_frame ≤ FrameMax)
    (hagree : ∀ p ∈ s.players, peerRunning p = true →
      ∀ q : Nat, q < s.players.length →
        playerStatus p q = s.local_connect_status.getD q default) :
    ∀ (fuel i : Nat) (mf : Frame) (acc : List TraceEvent),
      i + fuel = s.players.length → mf ≤ FrameMax →
      poll2_loop s i fuel mf acc = polln_loop s i fuel mf acc ∧
        (poll2_loop s i fuel mf acc).2 = (s, acc) := by
  intro fuel
  induction fuel with
  | zero =>
    intro i mf acc hi hmf
    exact ⟨rfl, rfl⟩
  | succ fuel ih =>
    intro i mf acc hi hmf
    have hilt : i < s.players.length := by omega
    have hllt : i < s.local_connect_status.length := by rw [hlen]; exact hilt
    have hlb : (s.local_connect_status.getD i default).last_frame ≤ FrameMax :=
      hbound _ (getD_mem _ _ hllt)
    have hinner : polln_inner s.players i =
        (if s.players.any peerRunning then
          ((!(s.local_connect_status.getD i default).disconnected),
            min (s.local_connect_status.getD i default).last_frame FrameMax)
        else (true, FrameMax)) := by
      unfold polln_inner
      rw [polln_inner_constant i (s.local_connect_status.getD i default)
        s.players true FrameMax (fun p hp hr => hagree p hp hr i hilt)]
      cases s.players.any peerRunning <;> simp
    have hqc : (match (s.players.getD i default).peer with
        | some peer =>
          if peer.state.is_running then
            !(peer.get_peer_connect_status i).disconnected
          else true
        | none => true) =
        (if peerRunning (s.players.getD i default) then
          !(s.local_connect_status.getD i default).disconnected
        else true) := by
      cases hpeer : (s.players.getD i default).peer with
      | none =>
        have hr2 : peerRunning (s.players.getD i default) = false := by
          unfold peerRunning
          rw [hpeer]
        rw [hr2]
        rfl
      | some peer =>
        by_cases hrun : peer.state.is_running = true
        · have hr2 : peerRunning (s.players.getD i default) = true := by
            unfold peerRunning
            rw [hpeer]
            exact hrun
          have hst : peer.get_peer_connect_status i =
              s.local_connect_status.getD i default := by
            have h3 := hagree _ (getD_mem _ _ hilt) hr2 i hilt
            unfold playerStatus at h3
            rw [hpeer] at h3
            exact h3
          rw [hr2]
          dsimp only
          rw [hrun, hst]
        · simp only [Bool.not_eq_true] at hrun
          have hr2 : peerRunning (s.players.getD i default) = false := by
            unfold peerRunning
            rw [hpeer]
            exact hrun
          rw [hr2]
          dsimp only
          rw [hrun]
          rfl
    have hmin3 : min FrameMax mf = mf := min_eq_right hmf
    have hmin2 :
        min (min (s.local_connect_status.getD i default).last_frame FrameMax) mf =
          min (s.local_connect_status.getD i default).last_frame mf := by
      rw [min_assoc, hmin3]
    have hih : ∀ mf2 : Frame, mf2 ≤ FrameMax → ∀ acc2 : List TraceEvent,
        poll2_loop s (i + 1) fuel mf2 acc2 = polln_loop s (i + 1) fuel mf2 acc2 ∧
          (poll2_loop s (i + 1) fuel mf2 acc2).2 = (s, acc2) :=
      fun mf2 hmf2 acc2 => ih (i + 1) mf2 acc2 (by omega) hmf2
    by_cases hd : (s.local_connect_status.getD i default).disconnected = true
    · -- locally disconnected queue: neither path changes anything here
      have h2 : poll2_loop s i (fuel + 1) mf acc =
          poll2_loop s (i + 1) fuel mf acc := by
        simp only [poll2_loop, hqc, hd]
        simp
      have hn : polln_loop s i (fuel + 1) mf acc =
          polln_loop s (i + 1) fuel mf acc := by
        simp only [polln_loop, hinner, hd]
        by_cases hany : s.players.any peerRunning = true
        · simp only [hany, if_true]
          simp [min_eq_left hlb]
          have hlb2 : (s.local_connect_status[i]?.getD default).last_frame ≤
              FrameMax := by simpa using hlb
          rw [if_neg (not_lt.mpr hlb2)]
          simp
        · simp only [Bool.not_eq_true] at hany
          simp only [hany, if_false]
          simp [hmin3]
      constructor
      · rw [h2, hn]
        exact (hih mf hmf acc).1
      · rw [h2]
        exact (hih mf hmf acc).2
    · simp only [Bool.not_eq_true] at hd
      -- connected queue: both paths lower min_frame to min last_frame mf
      have h2 : poll2_loop s i (fuel + 1) mf acc =
          poll2_loop s (i + 1) fuel
            (min (s.local_connect_status.getD i default).last_frame mf) acc := by
        simp only [poll2_loop, hqc, hd]
        cases hpr : peerRunning (s.players.getD i default) <;> simp
      have hn : polln_loop s i (fuel + 1) mf acc =
          polln_loop s (i + 1) fuel
            (min (s.local_connect_status.getD i default).last_frame mf) acc := by
        simp only [polln_loop, hinner, hd]
        by_cases hany : s.players.any peerRunning = true
        · simp only [hany, if_true]
          simp only [Bool.not_false, Bool.true_and, if_true]
          rw [← min_assoc, min_self, hmin2]
        · simp only [Bool.not_eq_true] at hany
          simp only [hany, Bool.false_eq_true, if_false]
          simp only [Bool.not_false, Bool.true_and, if_true]
          rw [hmin2]
      constructor
      · rw [h2, hn]
        exact (hih _ (le_trans (min_le_right _ _) hmf) acc).1
      · rw [h2]
        exact (hih _ (le_trans (min_le_right _ _) hmf) acc).2
  
end Backroll

namespace Backroll

/-- C1 (amended): when every running endpoint's — remote or spectator —
reported connect status for every queue agrees with the local connect status
(the steady state with no in-flight disagreement), and the statuses stay
within the i32 frame range, the two-player fast path and the N-player
general path return identical results: the same `min_frame`, a final
session state equal to the input state, and the same (empty) list of
disconnect-reconciliation calls. -/
theorem poll_paths_agree (s : P2PState)
    (hlen : s.local_connect_status.length = s.players.length)
    (hbound : ∀ st ∈ s.local_connect_status, st.last_frame ≤ FrameMax)
    (hagree : ∀ p ∈ s.players, peerRunning p = true →
      ∀ q : Nat, q < s.players.length →
        playerStatus p q = s.local_connect_status.getD q default) :
    poll_2_players s = poll_n_players s ∧
      (poll_2_players s).2 = (s, []) ∧ (poll_n_players s).2 = (s, []) := by
  unfold poll_2_players poll_n_players
  have h := poll_loops_agree_aux s hlen hbound hagree s.players.length 0 FrameMax
    [] (Nat.zero_add _) le_rfl
  refine ⟨h.1, h.2, ?_⟩
  rw [← h.1]
  exact h.2

/-- A two-player session whose running remote endpoint reports exactly the
local connect statuses. -/
def agreeingViewsState : P2PState := { baseState with
  players := [BackrollPlayer.Local,
    BackrollPlayer.Remote ⟨PeerState.Running, [⟨false, 4⟩, ⟨false, 6⟩], 0, none, none⟩]
  local_connect_status := [⟨false, 4⟩, ⟨false, 6⟩] }

/-- C1 witness: on a concrete steady-state session the two paths coincide,
change nothing and reconcile nothing. -/
theorem poll_paths_agree_witness :
    poll_2_players agreeingViewsState = poll_n_players agreeingViewsState ∧
      (poll_2_players agreeingViewsState).2 = (agreeingViewsState, []) ∧
      (poll_n_players agreeingViewsState).2 = (agreeingViewsState, []) :=
  poll_paths_agree agreeingViewsState (by decide) (by decide) (by decide)

end Backroll
